import Mathlib

/-!
Verification of the Edge-AI smart irrigation controller (Raspberry Pi Pico
sources) against its natural-language specification.

The development shallowly embeds the numeric pipeline of
`mlp_et0_predictotr.py` and the pure helper functions and pump / config /
daily-ET0 state transitions of `main.py` and `main5.py` over `ℚ`
(Python floats are modelled as exact rationals, decimal literals taken at
face value).  Fallible Python code (raising `ValueError` etc.) is embedded
with `Option` / sentinel return values exactly as the source handles them.

Where the two near-duplicate main scripts differ (`main.py` vs `main5.py`)
both variants are embedded, with the `main5` variant carrying a `5` suffix.
-/

/-! ## Constant tables of `mlp_et0_predictotr.py` (transcribed verbatim) -/

def SCALER_MEAN : List ℚ := [30.523708026575687, 67.71459507990662, 18.924402944873407]

def SCALER_SCALE : List ℚ := [3.5751311909811117, 15.723214825593704, 48.63370888697871]

def WEIGHTS_0 : List (List ℚ) := [
  [0.053256736082930384, 0.4556614644198747, 0.2956831098132046, 0.390611203857762, -0.49573082787825595, -0.26712442338928777, -0.4410235572435593, 0.3151124934653342, -2.0374896975933982e-147, -6.093239597537111e-106, -0.20590779631744852, 0.7770397050391823, 0.3815640516921651, -0.7107079169172609, -0.002707618226200019, 0.09307386063733245],
  [-0.16791817815558072, 0.08396617595601202, 0.04362431244958579, -0.42207432737964884, 0.4441163443582557, -0.48997516700048205, 0.3513257685067875, -0.004191927572604342, -1.239003522970632e-174, -1.4862611111652933e-84, 0.6979751005863711, -0.13542948790788364, -0.0042729855928596155, -0.23871321463091302, -0.02134113163304481, -0.5223530333312946],
  [-1.4340603348132237, -0.05623138321566759, 1.7802483055245486, 1.304945190351235, 0.9776157424983497, 0.3139871734563571, 0.6882998578682952, 0.7509840348275748, -1.6051166764073653e-63, -1.1210733326638123e-185, -1.7166667434170877, 1.2848190660888648, -1.1185322851024773, 0.060356849975963626, 1.2126690761625336, 1.0232338882640604]]

def WEIGHTS_1 : List (List ℚ) := [
  [-0.2847830853942866, -0.04894336945156456, 1.4583131433425092, 1.5143253850143812e-88, -0.7264039088864096, 0.42587725204011, 0.11949961610694788, -0.36591673142405284],
  [-0.2728998340358246, 0.24023646185119688, 0.20597304427292465, 8.446412413067904e-108, 0.5784438720016305, -0.46510428666278403, -0.2148554543803399, -0.16401721895707813],
  [0.7254694744452723, 0.04824566701970705, -0.173761248281168, 6.272802759676992e-62, 0.27607020056716475, -0.23090869429103414, 0.018611815288953167, 0.49879112742900256],
  [0.7285477397563662, -0.11779578123363092, -0.30222207999295625, -1.7846750911207596e-112, 0.6570346079299098, 0.008007215865847352, 0.08755759404773678, 0.33411984891123125],
  [0.38566036718287616, -0.11015269727783522, -0.48726546431718504, -7.538667466497139e-70, 0.04892677014818802, 0.08756335073999622, -0.43456544962087124, 0.37059220426233663],
  [0.7148494488495825, -0.3706853387737396, -0.03162654699387281, -4.968561076246304e-100, 0.13579624047710168, -0.4750581572187915, -0.4092720315250236, -0.03229553741430834],
  [0.8141288665073991, 0.29615426316505034, 0.17812947377421573, 3.652025208159293e-74, 0.7728911644083547, -0.32875867990806895, 0.03664436727722565, 0.4227755184441739],
  [0.6159664563699541, 0.321362806693978, 0.0037792297391362364, -6.357920888698645e-70, 0.1434289041190022, -0.1258979069632879, 0.15496368113763198, 0.6679399768785638],
  [-3.624311282752862e-52, -9.734464534961656e-185, 1.2227100458183595e-160, 3.6768523804866795e-95, 6.254653188883465e-72, 2.3453651086205982e-129, 3.1130640866873725e-60, 1.5318229952195728e-123],
  [2.5065569859141277e-183, -4.736891421768007e-115, 2.5873796880493072e-138, -1.352226087584374e-55, 6.539773669408313e-57, 5.221895600786153e-102, 5.75951463657817e-186, -1.4956683598249917e-116],
  [-0.7018792326039285, -0.4566868649430578, -0.37596590389659923, -5.214925711343096e-186, -0.9691546031029429, 1.2066615381531683e-109, 1.0163128906141286, -0.7468579314889985],
  [0.0063916082016488626, -0.09838164764903408, 0.5512446426326887, -1.2147597931374713e-99, 0.5673896116942954, 0.19613574244491702, -0.4296771100893114, 0.5888254689718364],
  [-0.17109912955552728, 0.04836384267418337, 0.9328249649835226, -3.400976765060054e-179, -0.5248353305947155, 0.2778542717164251, -0.29509812468990027, -0.3519718611312421],
  [-0.5764362857485142, 0.0031381195131248833, -0.566643017773637, -7.490191247189335e-54, -0.14028206866182227, -0.28066032131588753, -0.20175338138508545, -0.44347037925567717],
  [0.5809873822504297, -0.14880527949533928, 0.0006068468133094703, -1.6157652203472783e-75, 0.3741559035340779, -0.4424730018969445, 0.16706676966043313, 0.766240728279984],
  [0.09518650821029383, 0.04455443646256285, 0.24434554403252773, -2.8504645051703925e-172, 0.3522879938885286, -0.10786214919336565, -0.6042224395835604, 0.7340580447695334]]

def WEIGHTS_2 : List (List ℚ) := [
  [0.5664609979160748],
  [-0.6356844552555531],
  [-0.790921774976537],
  [1.0174909008196275e-29],
  [0.6648815872830408],
  [-0.7581555113582894],
  [-0.5808776834343329],
  [0.6389814925338703]]

def BIASES_0 : List ℚ := [-0.0900813784109052, -0.32239141701777874, 0.9895977041668974, 0.6468650926165534, 0.8748347751862976, 0.6685067157960585, 0.508265633763575, 0.7579812511181253, -0.4624945007251862, -0.34168576504309, -0.4208648595662413, 0.22662123091992215, -0.054544680440006044, -0.2806397368438346, 0.8259691546186022, 0.12604276939324174]

def BIASES_1 : List ℚ := [0.6926480824329304, 0.053241274443864485, -0.18648836023061607, -0.1507904253873391, 0.6334437732214047, 0.3417859021747934, 0.2062404013732311, 0.5709789833548106]

def BIASES_2 : List ℚ := [-0.5699131677038413]

/-! ## Inference engine, embedded from `mlp_et0_predictotr.py`

`scale_features`, `relu`, `identity`, `dot_product` and `predict_et0`
mirror the source functions; paths on which the Python code raises
(`ValueError` on a length mismatch) are embedded as `none`. -/

def scale_features (raw means scales : List ℚ) : Option (List ℚ) :=
  if raw.length = means.length ∧ raw.length = scales.length then
    some ((List.range raw.length).map (fun i =>
      if scales.getD i 0 = 0 then 0
      else (raw.getD i 0 - means.getD i 0) / scales.getD i 0))
  else none

def relu (x : ℚ) : ℚ := max 0 x

def identity (x : ℚ) : ℚ := x

def dot_product (a b : List ℚ) : Option ℚ :=
  if a.length = b.length then
    some ((List.range a.length).foldl (fun r i => r + a.getD i 0 * b.getD i 0) 0)
  else none

/-- The per-neuron weight gather of `predict_et0`:
`[W[j][i] for j in range(n)]` where `n` is the length of the layer input. -/
def neuron_column (w : List (List ℚ)) (n i : ℕ) : List ℚ :=
  (List.range n).map (fun j => (w.getD j []).getD i 0)

def seqOption : List (Option ℚ) → Option (List ℚ)
  | [] => some []
  | none :: _ => none
  | some v :: os =>
    match seqOption os with
    | none => none
    | some vs => some (v :: vs)

/-- One layer of `predict_et0`: for each neuron `i` (one per bias entry),
gather the weight column, dot it with the input, add the bias and apply the
activation.  A failing `dot_product` (impossible for the concrete tables)
propagates as `none`, like the Python exception. -/
def layer_outputs (x : List ℚ) (w : List (List ℚ)) (b : List ℚ)
    (act : ℚ → ℚ) : Option (List ℚ) :=
  seqOption ((List.range b.length).map (fun i =>
    (dot_product x (neuron_column w x.length i)).map (fun d => act (d + b.getD i 0))))

def predict_et0 (raw : List ℚ) : Option ℚ :=
  if raw.length = SCALER_MEAN.length then
    match scale_features raw SCALER_MEAN SCALER_SCALE with
    | none => none
    | some scaled =>
      match layer_outputs scaled WEIGHTS_0 BIASES_0 relu with
      | none => none
      | some l1 =>
        match layer_outputs l1 WEIGHTS_1 BIASES_1 relu with
        | none => none
        | some l2 =>
          match layer_outputs l2 WEIGHTS_2 BIASES_2 identity with
          | none => none
          | some out => some (out.getD 0 0)
  else none

/-! ## The pipeline as the specification words it (claim C1)

Built independently from the spec sentence: standardization with the
`scale == 0` guard, then per neuron `max(0, dot(input, column)) + bias`
where the neuron's weight vector is the column across all rows
(`one element from every row`), ReLU twice, identity output. -/

def specDot (a b : List ℚ) : ℚ := ((a.zip b).map (fun p => p.1 * p.2)).sum

def specColumn (w : List (List ℚ)) (i : ℕ) : List ℚ := w.map (fun row => row.getD i 0)

def specScaled (f : List ℚ) : List ℚ :=
  (List.range SCALER_MEAN.length).map (fun i =>
    if SCALER_SCALE.getD i 0 = 0 then 0
    else (f.getD i 0 - SCALER_MEAN.getD i 0) / SCALER_SCALE.getD i 0)

def specHidden (x : List ℚ) (w : List (List ℚ)) (b : List ℚ) : List ℚ :=
  (List.range b.length).map (fun i => max 0 (specDot x (specColumn w i) + b.getD i 0))

def specPipeline (f : List ℚ) : ℚ :=
  specDot (specHidden (specHidden (specScaled f) WEIGHTS_0 BIASES_0) WEIGHTS_1 BIASES_1)
    (specColumn WEIGHTS_2 0) + BIASES_2.getD 0 0

/-! ## C1 supporting lemmas -/

theorem foldl_add_range (f : ℕ → ℚ) (n : ℕ) (init : ℚ) :
    (List.range n).foldl (fun r i => r + f i) init = init + ((List.range n).map f).sum := by
  induction n generalizing init with
  | zero => simp
  | succ n ih =>
    rw [List.range_succ n, List.foldl_append, List.map_append, List.sum_append, ih]
    simp [add_assoc]

theorem sum_range_getD_mul : ∀ (a b : List ℚ), a.length = b.length →
    ((List.range a.length).map (fun i => a.getD i 0 * b.getD i 0)).sum = specDot a b
  | [], _, _ => by simp [specDot]
  | x :: xs, [], h => by simp at h
  | x :: xs, y :: ys, h => by
    have h' : xs.length = ys.length := by simpa using h
    have ih := sum_range_getD_mul xs ys h'
    simp only [List.length_cons, List.range_succ_eq_map, List.map_cons, List.map_map,
      Function.comp_def, List.getD_cons_zero, List.getD_cons_succ, List.sum_cons,
      specDot, List.zip_cons_cons] at ih ⊢
    rw [ih]

theorem dot_product_eq (a b : List ℚ) (h : a.length = b.length) :
    dot_product a b = some (specDot a b) := by
  rw [dot_product, if_pos h, foldl_add_range, zero_add, sum_range_getD_mul a b h]

theorem neuron_column_eq : ∀ (w : List (List ℚ)) (i : ℕ),
    neuron_column w w.length i = specColumn w i
  | [], _ => rfl
  | row :: rows, i => by
    have ih := neuron_column_eq rows i
    simp only [neuron_column, specColumn, List.length_cons, List.range_succ_eq_map,
      List.map_cons, List.map_map, Function.comp_def, List.getD_cons_zero,
      List.getD_cons_succ, List.cons.injEq] at ih ⊢
    exact ⟨trivial, ih⟩

theorem seqOption_map_some (f : ℕ → ℚ) : ∀ (l : List ℕ),
    seqOption (l.map (fun i => some (f i))) = some (l.map f)
  | [] => rfl
  | i :: is => by simp [seqOption, seqOption_map_some f is]

theorem layer_outputs_eq (x : List ℚ) (w : List (List ℚ)) (b : List ℚ) (act : ℚ → ℚ)
    (h : x.length = w.length) :
    layer_outputs x w b act =
      some ((List.range b.length).map
        (fun i => act (specDot x (specColumn w i) + b.getD i 0))) := by
  have hmap : (List.range b.length).map (fun i =>
        (dot_product x (neuron_column w x.length i)).map (fun d => act (d + b.getD i 0)))
      = (List.range b.length).map
        (fun i => some (act (specDot x (specColumn w i) + b.getD i 0))) := by
    refine List.map_congr_left (fun i _ => ?_)
    have hlen : x.length = (neuron_column w x.length i).length := by simp [neuron_column]
    rw [dot_product_eq x _ hlen, h, neuron_column_eq]
    rfl
  rw [layer_outputs, hmap, seqOption_map_some]

theorem predict_et0_eq_specPipeline (a b c : ℚ) :
    predict_et0 [a, b, c] = some (specPipeline [a, b, c]) := by
  have hc : ([a, b, c] : List ℚ).length = SCALER_MEAN.length ∧
      ([a, b, c] : List ℚ).length = SCALER_SCALE.length := ⟨rfl, rfl⟩
  have hscale : scale_features [a, b, c] SCALER_MEAN SCALER_SCALE
      = some (specScaled [a, b, c]) := by
    rw [scale_features, if_pos hc]
    rfl
  have h0 : (specScaled [a, b, c]).length = WEIGHTS_0.length := rfl
  have hl1 := layer_outputs_eq (specScaled [a, b, c]) WEIGHTS_0 BIASES_0 relu h0
  have h1 : ((List.range BIASES_0.length).map (fun i =>
      relu (specDot (specScaled [a, b, c]) (specColumn WEIGHTS_0 i)
        + BIASES_0.getD i 0))).length = WEIGHTS_1.length := rfl
  have hl2 := layer_outputs_eq _ WEIGHTS_1 BIASES_1 relu h1
  have h2 : ((List.range BIASES_1.length).map (fun i =>
      relu (specDot ((List.range BIASES_0.length).map (fun i =>
          relu (specDot (specScaled [a, b, c]) (specColumn WEIGHTS_0 i)
            + BIASES_0.getD i 0))) (specColumn WEIGHTS_1 i)
        + BIASES_1.getD i 0))).length = WEIGHTS_2.length := rfl
  have hl3 := layer_outputs_eq _ WEIGHTS_2 BIASES_2 identity h2
  rw [predict_et0, if_pos hc.1, hscale]
  simp only [hl1, hl2, hl3]
  simp only [specPipeline, specHidden, relu, identity]
  rfl

/-- C1: for every list of exactly three real-valued features, `predict_et0`
returns the pipeline of the specification: standardization with the
`scale == 0` guard, a 16-neuron ReLU layer, an 8-neuron ReLU layer and a
1-neuron identity output layer, with every neuron's weight vector gathered
as a column of the layer's weight table (one element from every row). -/
theorem predict_et0_matches_spec_pipeline (a b c : ℚ) :
    predict_et0 [a, b, c] = some (specPipeline [a, b, c]) :=
  predict_et0_eq_specPipeline a b c

/-! ## Rounding

Python's `round(x, 2)` rounds half to even; over the rational model this is
`rhe (x * 100) / 100`. -/

def rhe (q : ℚ) : ℤ :=
  if q - ⌊q⌋ < 1/2 then ⌊q⌋
  else if 1/2 < q - ⌊q⌋ then ⌊q⌋ + 1
  else if ⌊q⌋ % 2 = 0 then ⌊q⌋ else ⌊q⌋ + 1

def round2 (q : ℚ) : ℚ := (rhe (q * 100) : ℚ) / 100

theorem rhe_le (q : ℚ) : (rhe q : ℚ) ≤ q + 1/2 := by
  have hf := Int.floor_le q
  unfold rhe
  split_ifs <;> push_cast <;> linarith

theorem le_rhe (q : ℚ) : q - 1/2 ≤ (rhe q : ℚ) := by
  have hf := Int.lt_floor_add_one q
  unfold rhe
  split_ifs <;> push_cast <;> linarith

theorem rhe_mono {p q : ℚ} (h : p ≤ q) : rhe p ≤ rhe q := by
  by_contra hlt
  push_neg at hlt
  have h1 : (rhe q : ℚ) + 1 ≤ (rhe p : ℚ) := by exact_mod_cast hlt
  have h2 := rhe_le p
  have h3 := le_rhe q
  have hpq : p = q := le_antisymm h (by linarith)
  subst hpq
  exact absurd hlt (lt_irrefl _)

theorem floor_le_rhe (q : ℚ) : ⌊q⌋ ≤ rhe q := by
  unfold rhe
  split_ifs <;> omega

theorem rhe_nonneg {q : ℚ} (h : 0 ≤ q) : 0 ≤ rhe q :=
  le_trans (Int.le_floor.2 (by exact_mod_cast h)) (floor_le_rhe q)

theorem round2_mono {p q : ℚ} (h : p ≤ q) : round2 p ≤ round2 q := by
  unfold round2
  have := rhe_mono (by linarith : p * 100 ≤ q * 100)
  have hc : (rhe (p * 100) : ℚ) ≤ (rhe (q * 100) : ℚ) := by exact_mod_cast this
  linarith

theorem round2_nonneg {q : ℚ} (h : 0 ≤ q) : 0 ≤ round2 q := by
  unfold round2
  have := rhe_nonneg (by linarith : (0 : ℚ) ≤ q * 100)
  have hc : (0 : ℚ) ≤ (rhe (q * 100) : ℚ) := by exact_mod_cast this
  linarith

theorem round2_le (q : ℚ) : round2 q ≤ q + 1/200 := by
  unfold round2
  have := rhe_le (q * 100)
  linarith

/-! ## Irrigation calculator, embedded from `main.py` and `main5.py` -/

/-- `soil_available_water_depth` of `main.py`: no root-zone guard, only the
`vwc is None` and `fc <= pwp` checks. -/
def soil_available_water_depth (vwc_pct : Option ℚ) (rz_depth_mm fc_pct pwp_pct : ℚ) : ℚ :=
  match vwc_pct with
  | none => 0
  | some v =>
    let θ := v / 100
    let fc := fc_pct / 100
    let pwp := pwp_pct / 100
    if fc ≤ pwp then 0
    else round2 (min (max 0 (θ - pwp) * rz_depth_mm) ((fc - pwp) * rz_depth_mm))

/-- `soil_available_water_depth` of `main5.py`: additionally returns 0 when
`rz_depth_mm <= 0`. -/
def soil_available_water_depth5 (vwc_pct : Option ℚ) (rz_depth_mm fc_pct pwp_pct : ℚ) : ℚ :=
  match vwc_pct with
  | none => 0
  | some v =>
    if rz_depth_mm ≤ 0 then 0
    else
      let θ := v / 100
      let fc := fc_pct / 100
      let pwp := pwp_pct / 100
      if fc ≤ pwp then 0
      else round2 (min (max 0 (θ - pwp) * rz_depth_mm) ((fc - pwp) * rz_depth_mm))

/-- `available_water_depth` as claim C5 words it: 0 for absent VWC or
`root_zone_mm ≤ 0` or `fc ≤ pwp`, otherwise
`min(max(0, vwc/100 - pwp/100) * rz, (fc/100 - pwp/100) * rz)` rounded to
2 decimals. -/
def availableWaterDepthClaim (vwc_pct : Option ℚ) (rz_depth_mm fc_pct pwp_pct : ℚ) : ℚ :=
  match vwc_pct with
  | none => 0
  | some v =>
    if rz_depth_mm ≤ 0 then 0
    else if fc_pct ≤ pwp_pct then 0
    else round2 (min (max 0 (v / 100 - pwp_pct / 100) * rz_depth_mm)
      ((fc_pct / 100 - pwp_pct / 100) * rz_depth_mm))

/-- `irrigation_time` of `main.py`: `ETc = ET0 * Kc` with no clamping of the
factors; only the required depth is clamped (`max(0, ETc)`).  The
`avail_mm` argument is accepted and ignored. -/
def irrigation_time (Kc ET0 avail_mm area_m2 flow_lph : ℚ) : ℚ × ℚ :=
  let ETc := ET0 * Kc
  let req_mm := max 0 ETc
  let req_liters := req_mm / 1000 * area_m2 * 1000
  if flow_lph ≤ 0 then (0, ETc)
  else if 0 < req_liters then (req_liters / flow_lph * 3600, ETc)
  else (0, ETc)

/-- `irrigation_time` of `main5.py`: clamps `Kc` and `ET0` to `≥ 0` before
computing `ETc` (and has no `avail_mm` parameter). -/
def irrigation_time5 (Kc ET0 area_m2 flow_lph : ℚ) : ℚ × ℚ :=
  let K := if Kc < 0 then 0 else Kc
  let E := if ET0 < 0 then 0 else ET0
  let ETc := E * K
  let req_mm := max 0 ETc
  let req_liters := req_mm * area_m2
  if flow_lph ≤ 0 then (0, ETc)
  else if 0 < req_liters then (req_liters / flow_lph * 3600, ETc)
  else (0, ETc)

/-- `irrigation_time` as claim C4 words it: clamp both factors, multiply,
`required_liters = etc * area`, fail to `(0, etc)` on non-positive flow,
else `(required/flow)*3600` when the requirement is positive. -/
def irrigationTimeClaim (Kc ET0 area_m2 flow_lph : ℚ) : ℚ × ℚ :=
  let etc := max 0 ET0 * max 0 Kc
  let req_liters := etc * area_m2
  if flow_lph ≤ 0 then (0, etc)
  else if 0 < req_liters then (req_liters / flow_lph * 3600, etc)
  else (0, etc)

/-- C4 counterexample: `main.py`'s `irrigation_time` does not clamp `kc` and
`et0`: at `kc = et0 = -1`, `area = 1`, `flow = 9` it returns 400 seconds and
`etc = 1`, while the claimed clamped computation yields `(0, 0)`. -/
theorem irrigation_time_unclamped_cex :
    irrigation_time (-1) (-1) 0 1 9 = (400, 1) ∧
    irrigationTimeClaim (-1) (-1) 1 9 = (0, 0) := by
  constructor <;> norm_num [irrigation_time, irrigationTimeClaim, max_def]

/-- C4 (amended): `main5.py`'s `irrigation_time` computes exactly the claimed
clamped pipeline; `main.py`'s variant ignores its `available_mm` argument
entirely (it never reduces `required_liters`) and returns the unclamped
product `et0 * kc` as `etc`. -/
theorem irrigation_time_characterization :
    (∀ Kc ET0 area flow : ℚ,
      irrigation_time5 Kc ET0 area flow = irrigationTimeClaim Kc ET0 area flow) ∧
    (∀ Kc ET0 a1 a2 area flow : ℚ,
      irrigation_time Kc ET0 a1 area flow = irrigation_time Kc ET0 a2 area flow) ∧
    (∀ Kc ET0 avail area flow : ℚ,
      (irrigation_time Kc ET0 avail area flow).2 = ET0 * Kc) := by
  refine ⟨fun Kc ET0 area flow => ?_, fun _ _ _ _ _ _ => rfl, fun Kc ET0 avail area flow => ?_⟩
  · simp only [irrigation_time5, irrigationTimeClaim]
    have hK : (if Kc < 0 then (0 : ℚ) else Kc) = max 0 Kc := by
      rcases lt_or_le Kc 0 with h | h
      · rw [if_pos h, max_eq_left h.le]
      · rw [if_neg (not_lt.2 h), max_eq_right h]
    have hE : (if ET0 < 0 then (0 : ℚ) else ET0) = max 0 ET0 := by
      rcases lt_or_le ET0 0 with h | h
      · rw [if_pos h, max_eq_left h.le]
      · rw [if_neg (not_lt.2 h), max_eq_right h]
    have hprod : max 0 (max 0 ET0 * max 0 Kc) = max 0 ET0 * max 0 Kc :=
      max_eq_right (mul_nonneg (le_max_left 0 ET0) (le_max_left 0 Kc))
    rw [hK, hE, hprod]
  · simp only [irrigation_time]
    split_ifs <;> rfl

/-- C5 counterexample: `main.py`'s `soil_available_water_depth` has no
root-zone guard: at `vwc = 25` and `root_zone_mm = -100` it returns `-27`,
where the claim requires 0. -/
theorem soil_available_water_depth_neg_rz_cex :
    soil_available_water_depth (some 25) (-100) 42 15 = -27 ∧
    availableWaterDepthClaim (some 25) (-100) 42 15 = 0 := by
  constructor
  · norm_num [soil_available_water_depth, round2, rhe, min_def, max_def]
  · norm_num [availableWaterDepthClaim]

/-- C5 (amended): `main5.py`'s `soil_available_water_depth` computes exactly
the claimed function (0 for absent VWC, `root_zone ≤ 0` or `fc ≤ pwp`, else
the clamped-and-capped depth rounded to 2 decimals); `main.py`'s variant
lacks the root-zone guard. -/
theorem soil_available_water_depth5_matches_claim (vwc : Option ℚ) (rz fc pwp : ℚ) :
    soil_available_water_depth5 vwc rz fc pwp = availableWaterDepthClaim vwc rz fc pwp := by
  cases vwc with
  | none => rfl
  | some v =>
    simp only [soil_available_water_depth5, availableWaterDepthClaim]
    by_cases h1 : rz ≤ 0
    · simp [h1]
    · simp only [if_neg h1]
      by_cases h2 : fc / 100 ≤ pwp / 100
      · rw [if_pos h2, if_pos (by linarith : fc ≤ pwp)]
      · rw [if_neg h2, if_neg (fun hh => h2 (by linarith))]

/-- C6 counterexample: on `main.py`'s variant monotonicity in `vwc` fails for
a negative root zone (`f(50) = -35 < -27 = f(15)`), and on `main5.py`'s
variant the 2-decimal rounding can push the result above the claimed upper
bound `(fc-pwp)*rz/100`: at `rz = 7/54` the bound is `0.035` but the result
is `0.04`. -/
theorem available_water_monotone_bounds_cex :
    ((15 : ℚ) ≤ 50 ∧
      soil_available_water_depth (some 50) (-100) 42 15 <
        soil_available_water_depth (some 15) (-100) 42 15) ∧
    (soil_available_water_depth5 (some 42) (7/54) 42 15 = 1/25 ∧
      ((42 - 15) * (7/54) / 100 : ℚ) < 1/25) := by
  refine ⟨⟨by norm_num, ?_⟩, ⟨?_, by norm_num⟩⟩
  · norm_num [soil_available_water_depth, round2, rhe, min_def, max_def]
  · norm_num [soil_available_water_depth5, round2, rhe, min_def, max_def]

/-- C6 (amended): for `main5.py`'s `soil_available_water_depth`, the result is
non-decreasing in `vwc_pct` for any fixed parameters, and for a non-negative
root zone and sane soil parameters (`pwp < fc`) it lies in
`[0, (fc-pwp)*rz/100 + 1/200]` — the extra `1/200` slack is what rounding to
2 decimals can add beyond the claimed cap. -/
theorem available_water_monotone_and_bounded :
    (∀ rz fc pwp v w : ℚ, v ≤ w →
      soil_available_water_depth5 (some v) rz fc pwp ≤
        soil_available_water_depth5 (some w) rz fc pwp) ∧
    (∀ rz fc pwp v : ℚ, 0 ≤ rz → pwp < fc →
      0 ≤ soil_available_water_depth5 (some v) rz fc pwp ∧
        soil_available_water_depth5 (some v) rz fc pwp ≤ (fc - pwp) * rz / 100 + 1/200) := by
  constructor
  · intro rz fc pwp v w hvw
    simp only [soil_available_water_depth5]
    by_cases h1 : rz ≤ 0
    · simp [h1]
    · simp only [if_neg h1]
      by_cases h2 : fc / 100 ≤ pwp / 100
      · simp [h2]
      · simp only [if_neg h2]
        have hrz : (0 : ℚ) ≤ rz := le_of_not_le h1
        refine round2_mono (min_le_min ?_ le_rfl)
        exact mul_le_mul_of_nonneg_right (max_le_max le_rfl (by linarith)) hrz
  · intro rz fc pwp v hrz hfp
    simp only [soil_available_water_depth5]
    by_cases h1 : rz ≤ 0
    · rw [if_pos h1]
      refine ⟨le_rfl, ?_⟩
      nlinarith [mul_nonneg (sub_nonneg.2 hfp.le) hrz]
    · rw [if_neg h1, if_neg (by intro h; linarith : ¬ fc / 100 ≤ pwp / 100)]
      have hcur : (0 : ℚ) ≤ max 0 (v / 100 - pwp / 100) * rz :=
        mul_nonneg (le_max_left _ _) hrz
      have htaw : (0 : ℚ) ≤ (fc / 100 - pwp / 100) * rz :=
        mul_nonneg (by linarith) hrz
      constructor
      · exact round2_nonneg (le_min hcur htaw)
      · have h2 := round2_le (min (max 0 (v / 100 - pwp / 100) * rz) ((fc / 100 - pwp / 100) * rz))
        have h3 : min (max 0 (v / 100 - pwp / 100) * rz) ((fc / 100 - pwp / 100) * rz) ≤
            (fc / 100 - pwp / 100) * rz := min_le_right _ _
        have : (fc / 100 - pwp / 100) * rz = (fc - pwp) * rz / 100 := by ring
        linarith

/-- C6 witness: the amended theorem instantiated at concrete soil values. -/
theorem available_water_monotone_and_bounded_witness :
    soil_available_water_depth5 (some 20) 600 42 15 ≤
      soil_available_water_depth5 (some 30) 600 42 15 ∧
    (0 ≤ soil_available_water_depth5 (some 25) 600 42 15 ∧
      soil_available_water_depth5 (some 25) 600 42 15 ≤ (42 - 15) * 600 / 100 + 1/200) :=
  ⟨available_water_monotone_and_bounded.1 600 42 15 20 30 (by norm_num),
   available_water_monotone_and_bounded.2 600 42 15 25 (by norm_num) (by norm_num)⟩

/-! ## Piecewise-linear interpolation, embedded from `main.py` -/

/-- The guarded bracket formula of `linear_interpolate`:
`v0 + (v1-v0)*(day-d0)/(d1-d0)` with the `d1 == d0` guard returning `v0`. -/
def bracketVal (day : ℚ) (p q : ℚ × ℚ) : ℚ :=
  if q.1 - p.1 ≠ 0 then p.2 + (q.2 - p.2) * (day - p.1) / (q.1 - p.1) else p.2

/-- The bracket-scanning loop over `zip(profile, profile[1:])`: first
bracketing pair wins. -/
def scanBrackets (day : ℚ) : List ((ℚ × ℚ) × (ℚ × ℚ)) → Option ℚ
  | [] => none
  | (p, q) :: rest =>
    if p.1 ≤ day ∧ day ≤ q.1 then some (bracketVal day p q)
    else scanBrackets day rest

/-- `linear_interpolate` of `main.py` (`main5.py` is identical except that it
omits the empty-profile and `d1 == d0` guards, immaterial for non-empty
strictly sorted profiles). `profile[-1]` is `rest.getLastD p0`. -/
def linear_interpolate (day : ℚ) (profile : List (ℚ × ℚ)) : ℚ :=
  match profile with
  | [] => 0
  | p0 :: rest =>
    if day ≤ p0.1 then p0.2
    else if (rest.getLastD p0).1 ≤ day then (rest.getLastD p0).2
    else
      match scanBrackets day ((p0 :: rest).zip rest) with
      | some v => v
      | none => (rest.getLastD p0).2

/-- The three-point profile named by claim C7. -/
def claimProfile : List (ℚ × ℚ) := [(0, 0.7), (15, 0.7), (21, 0.8)]

theorem getLastD_append (l₁ l₂ : List (ℚ × ℚ)) (d : ℚ × ℚ) :
    (l₁ ++ l₂).getLastD d = l₂.getLastD (l₁.getLastD d) := by
  induction l₁ generalizing d with
  | nil => rfl
  | cons a l₁ ih => simp only [List.cons_append, List.getLastD_cons, ih]

theorem bracketVal_at_left (day : ℚ) (p q : ℚ × ℚ) (hday : day = p.1) :
    bracketVal day p q = p.2 := by
  subst hday
  unfold bracketVal
  split_ifs with h
  · rw [sub_self, mul_zero, zero_div, add_zero]
  · rfl

theorem bracketVal_at_right (day : ℚ) (p q : ℚ × ℚ) (hday : day = q.1)
    (hne : p.1 < q.1) : bracketVal day p q = q.2 := by
  subst hday
  unfold bracketVal
  rw [if_pos (sub_ne_zero.2 (ne_of_gt hne)),
    mul_div_cancel_right₀ _ (sub_ne_zero.2 (ne_of_gt hne))]
  ring

theorem getLastD_mem : ∀ (l : List (ℚ × ℚ)) (d : ℚ × ℚ), l ≠ [] → l.getLastD d ∈ l
  | [], _, h => absurd rfl h
  | [a], d, _ => by
    rw [List.getLastD_cons, List.getLastD_nil]
    exact List.mem_singleton_self a
  | a :: b :: l, d, _ => by
    have h1 := getLastD_mem (b :: l) a (by simp)
    simp only [List.getLastD_cons] at h1 ⊢
    exact List.mem_cons_of_mem a h1

theorem scanBrackets_finds (day : ℚ) (p q : ℚ × ℚ) (hpd : p.1 ≤ day) (hdq : day ≤ q.1) :
    ∀ (pre l post : List (ℚ × ℚ)),
      l = pre ++ p :: q :: post →
      l.Pairwise (fun a b => a.1 < b.1) →
      scanBrackets day (l.zip l.tail) = some (bracketVal day p q)
  | [], l, post, heq, hpw => by
    subst heq
    simp only [List.nil_append, List.tail_cons, List.zip_cons_cons, scanBrackets,
      if_pos (And.intro hpd hdq)]
  | [r], l, post, heq, hpw => by
    subst heq
    have hpw' : (r :: p :: q :: post).Pairwise (fun a b => a.1 < b.1) := by simpa using hpw
    have hrp : r.1 < p.1 := (List.pairwise_cons.1 hpw').1 p (by simp)
    have hpq : p.1 < q.1 :=
      (List.pairwise_cons.1 (List.pairwise_cons.1 hpw').2).1 q (by simp)
    by_cases hc : r.1 ≤ day ∧ day ≤ p.1
    · have hday : day = p.1 := le_antisymm hc.2 hpd
      simp only [List.cons_append, List.nil_append, List.tail_cons, List.zip_cons_cons,
        scanBrackets, if_pos hc]
      rw [bracketVal_at_right day r p hday hrp, bracketVal_at_left day p q hday]
    · simp only [List.cons_append, List.nil_append, List.tail_cons, List.zip_cons_cons,
        scanBrackets, if_neg hc]
      exact scanBrackets_finds day p q hpd hdq [] (p :: q :: post) post rfl
        (List.pairwise_cons.1 hpw').2
  | r :: r' :: pre', l, post, heq, hpw => by
    subst heq
    have hpw' := hpw
    rw [List.cons_append, List.pairwise_cons] at hpw'
    have htl : (r' :: pre' ++ p :: q :: post).Pairwise (fun a b => a.1 < b.1) :=
      by simpa using hpw'.2
    have hr'p : r'.1 < p.1 := (List.pairwise_cons.1 htl).1 p (by simp)
    have hc : ¬(r.1 ≤ day ∧ day ≤ r'.1) := by
      rintro ⟨_, h2⟩
      exact absurd (lt_of_le_of_lt h2 hr'p) (not_lt.2 hpd)
    simp only [List.cons_append, List.tail_cons, List.zip_cons_cons, scanBrackets,
      if_neg hc]
    exact scanBrackets_finds day p q hpd hdq (r' :: pre') (r' :: pre' ++ p :: q :: post)
      post (by simp) htl

/-- C7: for every non-empty strictly sorted profile, `linear_interpolate`
left-clamps at or below the first control point's day, right-clamps at or
above the last one's, and returns `v0 + (v1-v0)*(day-d0)/(d1-d0)` for every
bracketing consecutive pair (with the `d1 == d0` guard of the source); and on
the profile `[(0,0.7),(15,0.7),(21,0.8)]` it takes exactly the values the
claim lists. -/
theorem linear_interpolate_correct :
    (∀ (p0 : ℚ × ℚ) (rest : List (ℚ × ℚ)) (day : ℚ),
      (p0 :: rest).Pairwise (fun a b => a.1 < b.1) →
      (day ≤ p0.1 → linear_interpolate day (p0 :: rest) = p0.2) ∧
      ((rest.getLastD p0).1 ≤ day →
        linear_interpolate day (p0 :: rest) = (rest.getLastD p0).2) ∧
      (∀ pre p q post, p0 :: rest = pre ++ p :: q :: post → p.1 ≤ day → day ≤ q.1 →
        linear_interpolate day (p0 :: rest) = bracketVal day p q)) ∧
    (linear_interpolate (-5) claimProfile = 0.7 ∧
      linear_interpolate 0 claimProfile = 0.7 ∧
      linear_interpolate 100 claimProfile = 0.8 ∧
      linear_interpolate 21 claimProfile = 0.8 ∧
      linear_interpolate 18 claimProfile = 0.75) := by
  constructor
  · intro p0 rest day hpw
    refine ⟨fun h => ?_, fun h => ?_, fun pre p q post heq hpd hdq => ?_⟩
    · simp only [linear_interpolate, if_pos h]
    · by_cases hd : day ≤ p0.1
      · cases rest with
        | nil =>
          simp only [List.getLastD_nil] at h ⊢
          simp only [linear_interpolate, if_pos hd]
        | cons r rest' =>
          exfalso
          have hmem := getLastD_mem (r :: rest') p0 (by simp)
          have hlt : p0.1 < ((r :: rest').getLastD p0).1 :=
            (List.pairwise_cons.1 hpw).1 _ hmem
          exact absurd (le_trans h hd) (not_le.2 hlt)
      · simp only [linear_interpolate, if_neg hd, if_pos h]
    · have hpwA : (pre ++ p :: q :: post).Pairwise (fun a b => a.1 < b.1) := heq ▸ hpw
      have hpq : p.1 < q.1 := by
        have h2 := (List.pairwise_append.1 hpwA).2.1
        exact (List.pairwise_cons.1 h2).1 q (by simp)
      by_cases hd : day ≤ p0.1
      · cases pre with
        | nil =>
          have h0p : p0 = p := by
            have h3 := heq
            simp only [List.nil_append, List.cons.injEq] at h3
            exact h3.1
          have hday : day = p.1 := le_antisymm (h0p ▸ hd) hpd
          simp only [linear_interpolate, if_pos hd]
          rw [bracketVal_at_left day p q hday, h0p]
        | cons r pre' =>
          exfalso
          have h3 := heq
          simp only [List.cons_append, List.cons.injEq] at h3
          have hmem : p ∈ rest := by
            rw [h3.2]; simp
          have hlt : p0.1 < p.1 := (List.pairwise_cons.1 hpw).1 p hmem
          exact absurd hpd (not_le.2 (lt_of_le_of_lt hd hlt))
      · have hlast : rest.getLastD p0 = post.getLastD q := by
          have h1 := congrArg (fun l => l.getLastD p0) heq
          simp only at h1
          rw [List.getLastD_cons, getLastD_append, List.getLastD_cons,
            List.getLastD_cons] at h1
          exact h1
        by_cases hl : (rest.getLastD p0).1 ≤ day
        · cases post with
          | nil =>
            have hq : rest.getLastD p0 = q := by simpa using hlast
            have hday : day = q.1 := le_antisymm hdq (hq ▸ hl)
            simp only [linear_interpolate, if_neg hd, if_pos hl]
            rw [bracketVal_at_right day p q hday hpq, hq]
          | cons s post' =>
            exfalso
            have hmem := getLastD_mem (s :: post') q (by simp)
            have hqpw : (q :: s :: post').Pairwise (fun a b => a.1 < b.1) := by
              have h2 := (List.pairwise_append.1 hpwA).2.1
              exact (List.pairwise_cons.1 h2).2
            have hlt : q.1 < ((s :: post').getLastD q).1 :=
              (List.pairwise_cons.1 hqpw).1 _ hmem
            rw [hlast] at hl
            exact absurd (le_trans hl hdq) (not_le.2 hlt)
        · have hscan := scanBrackets_finds day p q hpd hdq pre (p0 :: rest) post heq hpw
          simp only [List.tail_cons] at hscan
          simp only [linear_interpolate, if_neg hd, if_neg hl, hscan]
  · refine ⟨?_, ?_, ?_, ?_, ?_⟩ <;>
      norm_num [linear_interpolate, scanBrackets, bracketVal, claimProfile]

/-- C7 witness: the quantified part of `linear_interpolate_correct`
instantiated on the claim's profile at day 18, bracketed by `(15, 0.7)` and
`(21, 0.8)`. -/
theorem linear_interpolate_correct_witness :
    linear_interpolate 18 claimProfile = bracketVal 18 (15, 0.7) (21, 0.8) :=
  (linear_interpolate_correct.1 (0, 0.7) [(15, 0.7), (21, 0.8)] 18
      (by norm_num [List.pairwise_cons])).2.2
    [(0, 0.7)] (15, 0.7) (21, 0.8) [] rfl (by norm_num) (by norm_num)

/-! ## Day clock, embedded from `main.py` -/

def isLeapYear (y : ℤ) : Bool := (y % 4 == 0 && y % 100 != 0) || y % 400 == 0

def daysInMonth (y m : ℤ) : ℤ :=
  if m = 2 then (if isLeapYear y then 29 else 28)
  else if m = 4 ∨ m = 6 ∨ m = 9 ∨ m = 11 then 30
  else 31

/-- Standard civil-calendar day count (days since 1970-01-01, floor-division
form of the usual era/year-of-era computation). -/
def daysFromCivil (y m d : ℤ) : ℤ :=
  let y' := if m ≤ 2 then y - 1 else y
  let era := Int.fdiv y' 400
  let yoe := y' - era * 400
  let mp := (m + 9) % 12
  let doy := (153 * mp + 2) / 5 + d - 1
  let doe := yoe * 365 + yoe / 4 - yoe / 100 + doy
  era * 146097 + doe - 719468

/-- Modelled from the spec: the platform `time.mktime` applied to the
planting tuple `(Y, M, D, 0, 0, 0, 0, 0)` is not part of the repository
sources; per the specification it converts a real calendar date to an
absolute epoch-second count and fails (raises, caught by the source's
`except`) on a date that cannot be constructed, e.g. February 30. -/
def mktime (y m d : ℤ) : Option ℤ :=
  if 1 ≤ m ∧ m ≤ 12 ∧ 1 ≤ d ∧ d ≤ daysInMonth y m then
    some (86400 * daysFromCivil y m d)
  else none

/-- `get_days_after_planting` of `main.py`: validates the month/day ranges
(raising `ValueError`, caught below, otherwise), converts both dates through
`mktime`, floors the difference in days and clamps to `≥ 0`; every failure
path returns the sentinel `-1` which the caller treats as the invalid-date
error. -/
def get_days_after_planting (now Y M D : ℤ) : ℤ :=
  if ¬(1 ≤ M ∧ M ≤ 12 ∧ 1 ≤ D ∧ D ≤ 31) then -1
  else
    match mktime Y M D with
    | none => -1
    | some sow => max 0 (Int.fdiv (now - sow) 86400)

theorem daysInMonth_le_31 (y m : ℤ) : daysInMonth y m ≤ 31 := by
  unfold daysInMonth
  split_ifs <;> norm_num

/-- C8: `get_days_after_planting` fails (the `-1` invalid-date sentinel) for
every out-of-range month or day and for every calendar date that cannot be
constructed (e.g. February 30); on every valid input it returns
`max 0 ⌊(now - sow) / 86400⌋`, which is never negative and is 0 whenever the
planting date lies in the future. -/
theorem get_days_after_planting_correct :
    (∀ now Y M D : ℤ, ¬(1 ≤ M ∧ M ≤ 12 ∧ 1 ≤ D ∧ D ≤ 31) →
      get_days_after_planting now Y M D = -1) ∧
    (∀ now Y M D : ℤ, 1 ≤ M ∧ M ≤ 12 ∧ 1 ≤ D ∧ D ≤ 31 → daysInMonth Y M < D →
      get_days_after_planting now Y M D = -1) ∧
    (∀ now Y M D : ℤ, 1 ≤ M → M ≤ 12 → 1 ≤ D → D ≤ daysInMonth Y M →
      get_days_after_planting now Y M D
          = max 0 (Int.fdiv (now - 86400 * daysFromCivil Y M D) 86400) ∧
        0 ≤ get_days_after_planting now Y M D ∧
        (now < 86400 * daysFromCivil Y M D → get_days_after_planting now Y M D = 0)) := by
  refine ⟨fun now Y M D h => ?_, fun now Y M D h hbad => ?_, fun now Y M D h1 h2 h3 h4 => ?_⟩
  · rw [get_days_after_planting, if_pos h]
  · rw [get_days_after_planting, if_neg (not_not.2 h)]
    have : mktime Y M D = none := by
      rw [mktime, if_neg]
      rintro ⟨_, _, _, hd⟩
      exact absurd hd (not_le.2 hbad)
    rw [this]
  · have hr : 1 ≤ M ∧ M ≤ 12 ∧ 1 ≤ D ∧ D ≤ 31 :=
      ⟨h1, h2, h3, le_trans h4 (daysInMonth_le_31 Y M)⟩
    have hmk : mktime Y M D = some (86400 * daysFromCivil Y M D) := by
      rw [mktime, if_pos ⟨h1, h2, h3, h4⟩]
    have heq : get_days_after_planting now Y M D
        = max 0 (Int.fdiv (now - 86400 * daysFromCivil Y M D) 86400) := by
      rw [get_days_after_planting, if_neg (not_not.2 hr), hmk]
    refine ⟨heq, heq ▸ le_max_left _ _, fun hfut => ?_⟩
    rw [heq]
    have hneg : now - 86400 * daysFromCivil Y M D < 0 := by linarith
    have hdiv : Int.fdiv (now - 86400 * daysFromCivil Y M D) 86400 < 0 := by
      rw [Int.fdiv_eq_ediv _ (by norm_num)]
      exact Int.ediv_neg' hneg (by norm_num)
    exact max_eq_left hdiv.le

/-- C8 witness: February 30 of 2026 is rejected, and a 2025-01-01 planting
date evaluated one day later yields the claimed clamped floor (here 1). -/
theorem get_days_after_planting_witness :
    get_days_after_planting 1000000 2026 2 30 = -1 ∧
    (get_days_after_planting (86400 * daysFromCivil 2025 1 2) 2025 1 1
        = max 0 (Int.fdiv (86400 * daysFromCivil 2025 1 2
            - 86400 * daysFromCivil 2025 1 1) 86400) ∧
      0 ≤ get_days_after_planting (86400 * daysFromCivil 2025 1 2) 2025 1 1 ∧
      (86400 * daysFromCivil 2025 1 2 < 86400 * daysFromCivil 2025 1 1 →
        get_days_after_planting (86400 * daysFromCivil 2025 1 2) 2025 1 1 = 0)) :=
  ⟨get_days_after_planting_correct.2.1 1000000 2026 2 30 (by norm_num)
      (by norm_num [daysInMonth, isLeapYear]),
    get_days_after_planting_correct.2.2 (86400 * daysFromCivil 2025 1 2) 2025 1 1
      (by norm_num) (by norm_num) (by norm_num)
      (by norm_num [daysInMonth])⟩

/-! ## Pump control state, embedded from the `main.py` main loop -/

structure PumpState where
  running : Bool
  start : ℚ
  duration : ℚ
deriving DecidableEq

/-- The once-per-rollover pump decision (`main.py` step 6): `pt` is the
computed `pump_time_s`, `now` the tick's clock, `pubOk` the outcome of the
publish.  The second component records the issued command
(`some true` = `PUMP_ON`, `some false` = `PUMP_OFF`, `none` = nothing). -/
def dailyPumpDecision (s : PumpState) (now pt : ℚ) (pubOk : Bool) :
    PumpState × Option Bool :=
  if 1/2 < pt then
    if !s.running then
      if pubOk then (⟨true, now, pt⟩, some true)
      else (⟨false, s.start, 0⟩, some true)
    else ({ s with duration := pt }, none)
  else
    if s.running then
      if pubOk then (⟨false, s.start, 0⟩, some false)
      else (s, some false)
    else (⟨false, s.start, 0⟩, none)

/-- The every-tick pump-off check (`main.py` lines 482-488); the Boolean
result records whether a `PUMP_OFF` command was issued. -/
def pumpOffCheck (s : PumpState) (now : ℚ) (pubOk : Bool) : PumpState × Bool :=
  if s.running then
    if s.duration ≤ now - s.start then
      if pubOk then (⟨false, s.start, 0⟩, true) else (s, true)
    else (s, false)
  else (s, false)

/-- One loop tick as far as the pump is concerned: the daily decision runs
only on a rollover tick (`roll = some pt`), the off-check runs every tick. -/
def pumpTick (s : PumpState) (now : ℚ) (roll : Option ℚ) (onOk offOk : Bool) :
    PumpState :=
  match roll with
  | some pt => (pumpOffCheck (dailyPumpDecision s now pt onOk).1 now offOk).1
  | none => (pumpOffCheck s now offOk).1

/-- A run of ordinary (non-rollover) ticks at the given clock values, with
every publish succeeding; returns the final state and the per-tick
`PUMP_OFF was issued` flags. -/
def runOffChecks (s : PumpState) : List ℚ → PumpState × List Bool
  | [] => (s, [])
  | t :: ts =>
    let r := pumpOffCheck s t true
    let rest := runOffChecks r.1 ts
    (rest.1, r.2 :: rest.2)

/-- The per-tick indicator of the first clock value whose elapsed time from
`t0` reaches `d`: `true` exactly at the first hit, `false` everywhere else. -/
def firstHit (t0 d : ℚ) : List ℚ → List Bool
  | [] => []
  | t :: ts =>
    if d ≤ t - t0 then true :: ts.map (fun _ => false)
    else false :: firstHit t0 d ts

theorem runOffChecks_off (s : PumpState) (hs : s.running = false) :
    ∀ ts : List ℚ, runOffChecks s ts = (s, ts.map (fun _ => false))
  | [] => rfl
  | t :: ts => by
    simp only [runOffChecks, pumpOffCheck, hs, Bool.false_eq_true, if_false,
      runOffChecks_off s hs ts, List.map_cons]

/-- C2: (i) the invariant `running → duration > 0` is preserved by every
tick, whatever the rollover value and publish outcomes; (ii) when the
publishes succeed, no tick ever ends with the pump both running and past its
target (`elapsed < duration` on exit whenever still running); (iii) from a
running state `(t0, d)`, a run of ordinary ticks issues the `PUMP_OFF`
command exactly at the first tick whose clock satisfies `elapsed ≥ d` and at
no other tick — in particular never again once the state is off. -/
theorem pump_off_exactly_once :
    (∀ (s : PumpState) (now : ℚ) (roll : Option ℚ) (onOk offOk : Bool),
      (s.running = true → 0 < s.duration) →
      (pumpTick s now roll onOk offOk).running = true →
      0 < (pumpTick s now roll onOk offOk).duration) ∧
    (∀ (s : PumpState) (now : ℚ) (roll : Option ℚ),
      (pumpTick s now roll true true).running = true →
      now - (pumpTick s now roll true true).start
        < (pumpTick s now roll true true).duration) ∧
    (∀ (t0 d : ℚ) (ts : List ℚ),
      (runOffChecks ⟨true, t0, d⟩ ts).2 = firstHit t0 d ts) := by
  refine ⟨?_, ?_, ?_⟩
  · intro s now roll onOk offOk hinv
    cases roll with
    | none =>
      simp only [pumpTick, pumpOffCheck]
      split_ifs <;> simp_all
    | some v =>
      simp only [pumpTick, dailyPumpDecision, pumpOffCheck]
      split_ifs <;> simp_all <;> linarith
  · intro s now roll
    cases roll with
    | none =>
      simp only [pumpTick, pumpOffCheck]
      split_ifs <;> simp_all
    | some v =>
      simp only [pumpTick, dailyPumpDecision, pumpOffCheck]
      split_ifs <;> simp_all
  · intro t0 d ts
    induction ts with
    | nil => rfl
    | cons t ts ih =>
      by_cases hd : d ≤ t - t0
      · have hoff := runOffChecks_off ⟨false, t0, 0⟩ rfl ts
        simp only [runOffChecks, pumpOffCheck, firstHit, hd, if_true, if_pos hd, hoff]
      · simp only [runOffChecks, pumpOffCheck, firstHit, if_neg hd] at ih ⊢
        simp [ih]

/-- C2 witness: the three parts of `pump_off_exactly_once` at concrete
inputs: a running pump with target 100 started at 0, ticked at time 10, and
an ordinary-tick run at clocks 50, 120, 130. -/
theorem pump_off_exactly_once_witness :
    (0 < (pumpTick ⟨true, 0, 100⟩ 10 none true true).duration) ∧
    (10 - (pumpTick ⟨true, 0, 100⟩ 10 none true true).start
      < (pumpTick ⟨true, 0, 100⟩ 10 none true true).duration) ∧
    (runOffChecks ⟨true, 0, 100⟩ [50, 120, 130]).2 = firstHit 0 100 [50, 120, 130] :=
  ⟨pump_off_exactly_once.1 ⟨true, 0, 100⟩ 10 none true true
      (fun _ => by norm_num) (by norm_num [pumpTick, pumpOffCheck]),
    pump_off_exactly_once.2.1 ⟨true, 0, 100⟩ 10 none
      (by norm_num [pumpTick, pumpOffCheck]),
    pump_off_exactly_once.2.2 0 100 [50, 120, 130]⟩

/-- C10: pump state updates are atomic with respect to publish failure: a
failed `PUMP_ON` at the daily decision leaves the pump off with zero target;
a failed `PUMP_OFF` at the timeout check leaves the state unchanged (still
running, target intact); and the next tick at any later clock re-issues the
`PUMP_OFF`, which on success turns the pump off. -/
theorem pump_publish_failure_atomic :
    (∀ (s : PumpState) (now pt : ℚ), s.running = false → 1/2 < pt →
      dailyPumpDecision s now pt false = (⟨false, s.start, 0⟩, some true)) ∧
    (∀ (s : PumpState) (now : ℚ), s.running = true → s.duration ≤ now - s.start →
      pumpOffCheck s now false = (s, true)) ∧
    (∀ (s : PumpState) (now now' : ℚ), s.running = true → s.duration ≤ now - s.start →
      now ≤ now' →
      pumpOffCheck (pumpOffCheck s now false).1 now' true = (⟨false, s.start, 0⟩, true)) := by
  refine ⟨fun s now pt hs hpt => ?_, fun s now hs hel => ?_, fun s now now' hs hel hnn => ?_⟩
  · simp only [dailyPumpDecision, hs, Bool.not_false, if_pos hpt, if_true, Bool.false_eq_true,
      if_false]
  · simp only [pumpOffCheck, hs, if_true, if_pos hel, Bool.false_eq_true, if_false]
  · have h1 : pumpOffCheck s now false = (s, true) := by
      simp only [pumpOffCheck, hs, if_true, if_pos hel, Bool.false_eq_true, if_false]
    rw [h1]
    have hel' : s.duration ≤ now' - s.start := by linarith
    cases s with
    | mk r st du =>
      simp only [pumpOffCheck] at *
      simp_all

/-- C10 witness: a failed ON leaves the pump off; a failed OFF at time 120
leaves the running state intact and the retry at time 125 succeeds. -/
theorem pump_publish_failure_atomic_witness :
    dailyPumpDecision ⟨false, 7, 3⟩ 50 60 false = (⟨false, 7, 0⟩, some true) ∧
    pumpOffCheck ⟨true, 0, 100⟩ 120 false = (⟨true, 0, 100⟩, true) ∧
    pumpOffCheck (pumpOffCheck ⟨true, 0, 100⟩ 120 false).1 125 true
      = (⟨false, 0, 0⟩, true) :=
  ⟨pump_publish_failure_atomic.1 ⟨false, 7, 3⟩ 50 60 rfl (by norm_num),
    pump_publish_failure_atomic.2.1 ⟨true, 0, 100⟩ 120 rfl (by norm_num),
    pump_publish_failure_atomic.2.2 ⟨true, 0, 100⟩ 120 125 rfl (by norm_num) (by norm_num)⟩

/-! ## MQTT configuration callback, embedded from `main.py` `sub_cb` -/

structure ConfigParams where
  crop : Option String
  planting_date : Option (ℤ × ℤ × ℤ)
  plants_number : Option ℤ
  plant_spacing_cm : Option ℚ
  row_spacing_cm : Option ℚ
  pump_flow_lph : Option ℚ
deriving DecidableEq

/-- `sub_cb` on the plants-number topic: a successfully parsed integer is
stored unconditionally — the `num > 0` test in the source only selects which
log message is emitted (`log_message(ok) if num > 0 else log_message(err)`),
it does not guard the assignment.  A parse failure (`ValueError`) leaves the
configuration unchanged. -/
def handle_plants_number (c : ConfigParams) (parsed : Option ℤ) : ConfigParams :=
  match parsed with
  | none => c
  | some n => { c with plants_number := some n }

/-- `sub_cb` on the plant-spacing topic; same unconditional store. -/
def handle_plant_spacing (c : ConfigParams) (parsed : Option ℚ) : ConfigParams :=
  match parsed with
  | none => c
  | some v => { c with plant_spacing_cm := some v }

/-- `sub_cb` on the row-spacing topic; same unconditional store. -/
def handle_row_spacing (c : ConfigParams) (parsed : Option ℚ) : ConfigParams :=
  match parsed with
  | none => c
  | some v => { c with row_spacing_cm := some v }

/-- `sub_cb` on the pump-flow-rate topic; same unconditional store. -/
def handle_pump_flowrate (c : ConfigParams) (parsed : Option ℚ) : ConfigParams :=
  match parsed with
  | none => c
  | some v => { c with pump_flow_lph := some v }

/-- The completeness check of `wait_for_configuration`:
`required_configs - set(config_params.keys()) == ∅`. -/
def configComplete (c : ConfigParams) : Bool :=
  c.crop.isSome && c.planting_date.isSome && c.plants_number.isSome &&
    c.plant_spacing_cm.isSome && c.row_spacing_cm.isSome && c.pump_flow_lph.isSome

/-- C9: the configuration callback stores non-positive numeric values
instead of rejecting them: starting from a configuration missing only the
four numeric fields, messages `-5` (plant count), `-1` (plant spacing),
`-2` (row spacing) and `-3` (pump flow) are all accepted, after which the
required-configuration completeness check succeeds even though every claimed
positivity constraint is violated. -/
theorem config_accepts_nonpositive_values :
    configComplete (handle_pump_flowrate (handle_row_spacing (handle_plant_spacing
        (handle_plants_number ⟨some "onion", some (2025, 1, 1), none, none, none, none⟩
          (some (-5))) (some (-1))) (some (-2))) (some (-3))) = true ∧
    (handle_pump_flowrate (handle_row_spacing (handle_plant_spacing
        (handle_plants_number ⟨some "onion", some (2025, 1, 1), none, none, none, none⟩
          (some (-5))) (some (-1))) (some (-2))) (some (-3)))
      = ⟨some "onion", some (2025, 1, 1), some (-5), some (-1), some (-2), some (-3)⟩ ∧
    ¬(0 < (-5 : ℤ) ∧ 0 < (-1 : ℚ) ∧ 0 < (-2 : ℚ) ∧ 0 < (-3 : ℚ)) := by
  refine ⟨rfl, rfl, ?_⟩
  rintro ⟨h, -⟩
  norm_num at h

/-! ## Daily weather fetch and ET0 update, from `main.py` and `main5.py` -/

structure WeatherState where
  last_tmax : Option ℚ
  last_rh : Option ℚ
  last_energy : Option ℚ
  last_et0 : ℚ
deriving DecidableEq

/-- `main.py` daily rollover step 4: on a successful fetch the raw model
output is stored in `last_et0` with no clamping; if the model raises, the
previous value is kept; on a fetch failure the previous values are reused,
with `last_et0` forced to 0 only when no weather has ever been fetched. -/
def dailyEt0Update (s : WeatherState) (fetch : Option (ℚ × ℚ × ℚ)) : WeatherState :=
  match fetch with
  | some (t, rh, e) =>
    match predict_et0 [t, rh, e] with
    | some v => ⟨some t, some rh, some e, v⟩
    | none => ⟨some t, some rh, some e, s.last_et0⟩
  | none =>
    match s.last_tmax with
    | none => { s with last_et0 := 0 }
    | some _ => s

/-- `main5.py` daily rollover step 4: clamps the raw output
(`last_et0 = max(0.0, raw_et0)`); on a fetch failure with previously known
weather it re-runs the model on the old features (again clamped); with no
weather ever fetched it forces 0. -/
def dailyEt0Update5 (s : WeatherState) (fetch : Option (ℚ × ℚ × ℚ)) : WeatherState :=
  match fetch with
  | some (t, rh, e) =>
    match predict_et0 [t, rh, e] with
    | some v => ⟨some t, some rh, some e, max 0 v⟩
    | none => ⟨some t, some rh, some e, s.last_et0⟩
  | none =>
    match s.last_tmax, s.last_rh, s.last_energy with
    | some t, some rh, some e =>
      match predict_et0 [t, rh, e] with
      | some v => { s with last_et0 := max 0 v }
      | none => s
    | none, _, _ => { s with last_et0 := 0 }
    | some _, none, _ => { s with last_et0 := 0 }
    | some _, some _, none => { s with last_et0 := 0 }

set_option maxHeartbeats 2000000 in
theorem specPipeline_25_120_0_neg : specPipeline [25, 120, 0] < 0 := by
  norm_num [specPipeline, specHidden, specScaled, specDot, specColumn, max_def,
    SCALER_MEAN, SCALER_SCALE, WEIGHTS_0, WEIGHTS_1, WEIGHTS_2, BIASES_0, BIASES_1,
    BIASES_2, List.range_succ]

/-- C3: the failing input for `main.py`: a successful fetch returning
`(tmax = 25, rh = 120, E = 0)` makes the network output negative, and
`main.py` stores it in `last_et0` with no clamp, violating the claimed
`ET0 ≥ 0` invariant; `main5.py` at the same input stores the clamped value 0,
and `main.py`'s never-fetched fail-safe does store 0. -/
theorem daily_et0_stores_negative :
    (dailyEt0Update ⟨none, none, none, 0⟩ (some (25, 120, 0))).last_et0 < 0 ∧
    (dailyEt0Update5 ⟨none, none, none, 0⟩ (some (25, 120, 0))).last_et0 = 0 ∧
    (dailyEt0Update ⟨none, none, none, 0⟩ none).last_et0 = 0 := by
  have h := predict_et0_eq_specPipeline 25 120 0
  have hneg := specPipeline_25_120_0_neg
  refine ⟨?_, ?_, rfl⟩
  · simp only [dailyEt0Update, h]
    exact hneg
  · simp only [dailyEt0Update5, h]
    exact max_eq_left hneg.le
